import Mathlib

/-!
# BeesTrap Sentinel agent — verification of the detection/response pipeline

Shallow embedding of the Rust agent (`src/agent/src/processor.rs`,
`src/agent/src/indexer.rs`, `src/agent/src/types.rs`) and proofs of the
spec's claims about it.

Modelling conventions:
* Byte buffers are `List Nat`, each entry a `u8` value; reading a `u8` is
  value `% 256`.
* Rust `f32`/`f64` arithmetic is modelled by exact rational arithmetic
  (`ℚ`); the claims under study concern which expressions are computed and
  in which order, not IEEE rounding.
* Fallible Rust code returning `Result` is modelled with an explicit result
  type; an out-of-bounds slice index (a Rust panic) is modelled as a
  distinguished `panic` outcome so that panic-freedom is provable.
* `u64`/`u128` counters are modelled as `Nat`; wraparound at `2^64`/`2^128`
  is outside the modelled range.
-/

namespace BeesTrap

/-! ## Calldata proof-bytes extraction (`extract_proof_from_calldata`) -/

/-- Result of `extract_proof_from_calldata`: `ok` for `Ok(Vec<u8>)`,
`fmtError` for an `Err(..)` return, `panic` for a Rust slice-index panic
(which the source must never reach). -/
inductive ExtractResult where
  | ok (bytes : List Nat)
  | fmtError (msg : String)
  | panic
  deriving DecidableEq, Repr

/-- Rust slice `data[start..stop]`: defined exactly when
`start ≤ stop ∧ stop ≤ data.len()`, otherwise a panic (`none`). -/
def slice? (data : List Nat) (start stop : Nat) : Option (List Nat) :=
  if start ≤ stop ∧ stop ≤ data.length then
    some ((data.drop start).take (stop - start))
  else
    none

/-- `u32::from_be_bytes` on a 4-byte slice (each entry taken as a `u8`). -/
def u32_be : List Nat → Nat
  | [b0, b1, b2, b3] =>
      (b0 % 256) * 16777216 + (b1 % 256) * 65536 + (b2 % 256) * 256 + b3 % 256
  | _ => 0

/-- Embedding of `extract_proof_from_calldata` (processor.rs:522-556).
The file read is abstracted: `data` is the byte buffer read from the
calldata file. Every Rust range index is modelled through `slice?`; a
`none` there is a panic. The `try_into::<[u8;4]>()?` conversions fail
(with an `Err` return, via `?`) exactly when the slice length is not 4. -/
def extract_proof_from_calldata (data : List Nat) : ExtractResult :=
  if data.length < 100 then .fmtError "Calldata too short"
  else
    match slice? data 32 36 with
    | none => .panic
    | some ob =>
      if ob.length ≠ 4 then .fmtError "TryFromSliceError" else
      let proof_offset := u32_be ob
      let len_offset := 4 + proof_offset
      if data.length < len_offset + 32 then .fmtError "Invalid proof offset in calldata"
      else
        match slice? data (len_offset + 28) (len_offset + 32) with
        | none => .panic
        | some lb =>
          if lb.length ≠ 4 then .fmtError "TryFromSliceError" else
          let proof_len := u32_be lb
          let proof_start := len_offset + 32
          if data.length < proof_start + proof_len then .fmtError "Invalid proof length in calldata"
          else
            match slice? data proof_start (proof_start + proof_len) with
            | none => .panic
            | some pb => .ok pb

/-- Projection to the successfully extracted bytes (errors collapse to
`none`). -/
def ExtractResult.bytes? : ExtractResult → Option (List Nat)
  | .ok bs => some bs
  | _ => none

/-- The extraction rule exactly as the spec words it: the 32-byte word at
bytes 4..35 has its low 4 bytes at 32..35 giving offset `O` relative to
byte 4; the length word sits at byte `4+O`, its low 4 bytes give `L`; the
proof is the `L` bytes after that word; buffers shorter than 100 bytes and
offsets/lengths past the end are format errors. -/
def extract_spec (data : List Nat) : Option (List Nat) :=
  if data.length < 100 then none
  else
    let O := u32_be ((data.drop 32).take 4)
    let lenPos := 4 + O
    if data.length < lenPos + 32 then none
    else
      let L := u32_be ((data.drop (lenPos + 28)).take 4)
      if data.length < lenPos + 32 + L then none
      else some ((data.drop (lenPos + 32)).take L)

/-- The §8 test vector: 4 selector bytes, a 32-byte offset word whose value
is 64, 28 padding bytes, a 32-byte length word whose value is 3, and the
payload `0xAA 0xBB 0xCC` (103 bytes in total). -/
def exampleCalldata : List Nat :=
  [0, 0, 0, 0] ++
  (List.replicate 31 0 ++ [64]) ++
  List.replicate 32 0 ++
  (List.replicate 31 0 ++ [3]) ++
  [0xAA, 0xBB, 0xCC]

theorem slice?_of_le (data : List Nat) (a b : Nat) (h1 : a ≤ b) (h2 : b ≤ data.length) :
    slice? data a b = some ((data.drop a).take (b - a)) := by
  simp [slice?, h1, h2]

theorem length_slice (data : List Nat) (a b : Nat) (h1 : a ≤ b) (h2 : b ≤ data.length) :
    ((data.drop a).take (b - a)).length = b - a := by
  simp only [List.length_take, List.length_drop]
  omega

/-- Characterization of `extract_proof_from_calldata` on buffers of length
at least 100: the panic branches and the `try_into` failure branches are
unreachable, and the result is determined by the offset word, the length
word and the two remaining bounds checks. -/
theorem extract_eq (data : List Nat) (h : ¬ data.length < 100) :
    extract_proof_from_calldata data =
      (if data.length < 4 + u32_be ((data.drop 32).take 4) + 32 then
        .fmtError "Invalid proof offset in calldata"
      else if data.length <
          4 + u32_be ((data.drop 32).take 4) + 32 +
            u32_be ((data.drop (4 + u32_be ((data.drop 32).take 4) + 28)).take 4) then
        .fmtError "Invalid proof length in calldata"
      else
        .ok ((data.drop (4 + u32_be ((data.drop 32).take 4) + 32)).take
          (u32_be ((data.drop (4 + u32_be ((data.drop 32).take 4) + 28)).take 4)))) := by
  have h100 : 100 ≤ data.length := by omega
  rw [extract_proof_from_calldata, if_neg h]
  rw [slice?_of_le data 32 36 (by omega) (by omega)]
  have e36 : 36 - 32 = 4 := by norm_num
  rw [e36]
  have hob : ((data.drop 32).take 4).length = 4 := by
    simp only [List.length_take, List.length_drop]; omega
  simp only [hob]
  rw [if_neg (by norm_num)]
  set O := u32_be ((data.drop 32).take 4) with hO
  by_cases hoff : data.length < 4 + O + 32
  · rw [if_pos hoff, if_pos hoff]
  · rw [if_neg hoff, if_neg hoff]
    rw [slice?_of_le data (4 + O + 28) (4 + O + 32) (by omega) (by omega)]
    have e4 : 4 + O + 32 - (4 + O + 28) = 4 := by omega
    rw [e4]
    have hlb : ((data.drop (4 + O + 28)).take 4).length = 4 := by
      simp only [List.length_take, List.length_drop]; omega
    simp only [hlb]
    rw [if_neg (by norm_num)]
    set L := u32_be ((data.drop (4 + O + 28)).take 4) with hL
    by_cases hlen : data.length < 4 + O + 32 + L
    · rw [if_pos hlen, if_pos hlen]
    · rw [if_neg hlen, if_neg hlen]
      rw [slice?_of_le data (4 + O + 32) (4 + O + 32 + L) (by omega) (by omega)]
      have eL : 4 + O + 32 + L - (4 + O + 32) = L := by omega
      rw [eL]

/-- C1: proof-bytes extraction reads the offset word at bytes 4..35 (low 4
bytes, big-endian, relative to byte 4), the length word at byte `4+O`, and
returns the `L` bytes after it; short buffers (< 100 bytes) and
out-of-range offsets/lengths are format errors; the §8 concrete buffer
(offset 64, length 3, payload `0xAABBCC`) extracts to `[0xAA,0xBB,0xCC]`. -/
theorem extract_proof_matches_spec :
    (∀ data, (extract_proof_from_calldata data).bytes? = extract_spec data)
    ∧ extract_proof_from_calldata exampleCalldata = .ok [0xAA, 0xBB, 0xCC]
    ∧ (∀ data, data.length < 100 →
        extract_proof_from_calldata data = .fmtError "Calldata too short") := by
  refine ⟨?_, by decide, ?_⟩
  · intro data
    by_cases h : data.length < 100
    · rw [extract_proof_from_calldata, if_pos h, extract_spec, if_pos h]
      rfl
    · rw [extract_eq data h, extract_spec, if_neg h]
      split
      · rw [if_pos (by omega)]; rfl
      · split
        · rw [if_neg (by omega), if_pos (by omega)]; rfl
        · rw [if_neg (by omega), if_neg (by omega)]; rfl
  · intro data h
    rw [extract_proof_from_calldata, if_pos h]

/-- Witness for C1 at a concrete short buffer. -/
theorem extract_proof_matches_spec_witness :
    extract_proof_from_calldata [] = .fmtError "Calldata too short" :=
  extract_proof_matches_spec.2.2 [] (by decide)

/-- C10: extraction is total and panic-free — for every byte buffer it
returns either proof bytes or an error value; every slice access is
guarded by a prior bounds check, so the distinguished `panic` outcome
(modelling a Rust out-of-range slice) is unreachable. -/
theorem extract_proof_never_panics :
    ∀ data, extract_proof_from_calldata data ≠ ExtractResult.panic := by
  intro data
  by_cases h : data.length < 100
  · rw [extract_proof_from_calldata, if_pos h]
    intro hc; cases hc
  · rw [extract_eq data h]
    split
    · intro hc; cases hc
    · split
      · intro hc; cases hc
      · intro hc; cases hc

/-! ## Inference output selection (processor.rs:209-250)

An ONNX output tensor, as far as the selection logic observes it:
`try_extract_tensor::<f32>()` succeeds exactly on an `f32s` tensor,
`try_extract_tensor::<i64>()` exactly on an `i64s` tensor; `other` stands
for any tensor of a third element type (both extractions fail). `f32`
values are modelled as exact rationals, and `i64 as f32` as the exact
`Int → ℚ` cast. -/

inductive Tensor where
  | f32s (elems : List ℚ)
  | i64s (elems : List Int)
  | other
  deriving DecidableEq, Repr

def tryExtractF32 : Tensor → Option (List ℚ)
  | .f32s l => some l
  | _ => none

def tryExtractI64 : Tensor → Option (List Int)
  | .i64s l => some l
  | _ => none

/-- The `outputs[0]` fallback: try `f32` extraction, then `i64`
extraction, else `0.0`. `none` models a Rust index panic (`outputs[0]`
with no outputs, or element `[0]` of an empty tensor). -/
def fallbackOutput0 (outputs : List Tensor) : Option ℚ :=
  match outputs.get? 0 with
  | none => none
  | some t0 =>
    match tryExtractF32 t0 with
    | some l => l.get? 0
    | none =>
      match tryExtractI64 t0 with
      | some l => (l.get? 0).map (fun n => (n : ℚ))
      | none => some 0

/-- Embedding of the confidence-selection block of `process_transaction`
(processor.rs:214-249): with ≥ 2 outputs, take element 1 of output 1 when
it extracts as `f32` with ≥ 2 elements; otherwise fall back to the first
element of output 0. -/
def selectConfidence (outputs : List Tensor) : Option ℚ :=
  if 2 ≤ outputs.length then
    match outputs.get? 1 with
    | none => none
    | some t1 =>
      match tryExtractF32 t1 with
      | some l1 => if 2 ≤ l1.length then l1.get? 1 else fallbackOutput0 outputs
      | none => fallbackOutput0 outputs
  else fallbackOutput0 outputs

/-- C2: the output-selection policy over every output list. With ≥ 2
outputs: if output 1 extracts as a float tensor with ≥ 2 elements, the
confidence is that tensor's element 1; if output 1 is not a float tensor,
or is one with < 2 elements (the "unexpected shape" arm), the confidence
is the output-0 fallback. With < 2 outputs the confidence is the output-0
fallback directly. The fallback, for every output list, takes the first
element of output 0 as floats, else as ints (cast), else defaults to 0.0.
In particular a single int output `[1]` gives `1.0` and two outputs with
output 1 = floats `[0.2, 0.8]` give `0.8`. -/
theorem selectConfidence_policy :
    (∀ (outputs : List Tensor) (t1 : Tensor) (l1 : List ℚ),
      2 ≤ outputs.length → outputs.get? 1 = some t1 →
      tryExtractF32 t1 = some l1 → 2 ≤ l1.length →
      selectConfidence outputs = l1.get? 1)
    ∧ (∀ (outputs : List Tensor) (t1 : Tensor),
      2 ≤ outputs.length → outputs.get? 1 = some t1 →
      tryExtractF32 t1 = none →
      selectConfidence outputs = fallbackOutput0 outputs)
    ∧ (∀ (outputs : List Tensor) (t1 : Tensor) (l1 : List ℚ),
      2 ≤ outputs.length → outputs.get? 1 = some t1 →
      tryExtractF32 t1 = some l1 → l1.length < 2 →
      selectConfidence outputs = fallbackOutput0 outputs)
    ∧ (∀ outputs : List Tensor, outputs.length < 2 →
      selectConfidence outputs = fallbackOutput0 outputs)
    ∧ (∀ (outputs : List Tensor) (t0 : Tensor) (l : List ℚ),
      outputs.get? 0 = some t0 → tryExtractF32 t0 = some l →
      fallbackOutput0 outputs = l.get? 0)
    ∧ (∀ (outputs : List Tensor) (t0 : Tensor) (l : List Int),
      outputs.get? 0 = some t0 → tryExtractF32 t0 = none →
      tryExtractI64 t0 = some l →
      fallbackOutput0 outputs = (l.get? 0).map (fun n => (n : ℚ)))
    ∧ (∀ (outputs : List Tensor) (t0 : Tensor),
      outputs.get? 0 = some t0 → tryExtractF32 t0 = none →
      tryExtractI64 t0 = none →
      fallbackOutput0 outputs = some 0)
    ∧ selectConfidence [Tensor.i64s [1]] = some 1
    ∧ selectConfidence [Tensor.f32s [0.5], Tensor.f32s [0.2, 0.8]] = some 0.8 := by
  refine ⟨?_, ?_, ?_, ?_, ?_, ?_, ?_,
    by norm_num [selectConfidence, fallbackOutput0, tryExtractF32, tryExtractI64],
    by norm_num [selectConfidence, fallbackOutput0, tryExtractF32, tryExtractI64]⟩
  · intro outputs t1 l1 hlen hget hf hl
    simp only [selectConfidence, if_pos hlen, hget, hf, if_pos hl]
  · intro outputs t1 hlen hget hf
    simp only [selectConfidence, if_pos hlen, hget, hf]
  · intro outputs t1 l1 hlen hget hf hl
    simp only [selectConfidence, if_pos hlen, hget, hf,
      if_neg (show ¬ 2 ≤ l1.length by omega)]
  · intro outputs hlen
    simp only [selectConfidence, if_neg (show ¬ 2 ≤ outputs.length by omega)]
  · intro outputs t0 l hget hf
    simp only [fallbackOutput0, hget, hf]
  · intro outputs t0 l hget hf hi
    simp only [fallbackOutput0, hget, hf, hi]
  · intro outputs t0 hget hf hi
    simp only [fallbackOutput0, hget, hf, hi]

/-- Witness for C2: the conditional clauses instantiated at concrete
tensors — a three-output list whose output 1 is floats `[0.2, 0.8]`, a
two-output list whose output 1 is a float tensor with a single element
(the "unexpected shape" arm), a single-output list, and the three
fallback arms. -/
theorem selectConfidence_policy_witness :
    selectConfidence [Tensor.other, Tensor.f32s [0.2, 0.8], Tensor.i64s [7]] = some 0.8
    ∧ selectConfidence [Tensor.i64s [3], Tensor.f32s [0.7]]
        = fallbackOutput0 [Tensor.i64s [3], Tensor.f32s [0.7]]
    ∧ selectConfidence [Tensor.f32s [0.6], Tensor.i64s [0, 1]]
        = fallbackOutput0 [Tensor.f32s [0.6], Tensor.i64s [0, 1]]
    ∧ selectConfidence [Tensor.i64s [1]] = fallbackOutput0 [Tensor.i64s [1]]
    ∧ fallbackOutput0 [Tensor.f32s [0.6], Tensor.i64s [0, 1]] = some 0.6
    ∧ fallbackOutput0 [Tensor.i64s [1]] = some 1
    ∧ fallbackOutput0 [Tensor.other] = some 0 := by
  refine ⟨?_, ?_, ?_, ?_, ?_, ?_, ?_⟩
  · have h := selectConfidence_policy.1
      [Tensor.other, Tensor.f32s [0.2, 0.8], Tensor.i64s [7]]
      (Tensor.f32s [0.2, 0.8]) [0.2, 0.8] (by norm_num) rfl rfl (by norm_num)
    exact h.trans rfl
  · exact selectConfidence_policy.2.2.1 [Tensor.i64s [3], Tensor.f32s [0.7]]
      (Tensor.f32s [0.7]) [0.7] (by norm_num) rfl rfl (by norm_num)
  · exact selectConfidence_policy.2.1 [Tensor.f32s [0.6], Tensor.i64s [0, 1]]
      (Tensor.i64s [0, 1]) (by norm_num) rfl rfl
  · exact selectConfidence_policy.2.2.2.1 [Tensor.i64s [1]] (by norm_num)
  · have h := selectConfidence_policy.2.2.2.2.1
      [Tensor.f32s [0.6], Tensor.i64s [0, 1]] (Tensor.f32s [0.6]) [0.6] rfl rfl
    exact h.trans rfl
  · have h := selectConfidence_policy.2.2.2.2.2.1
      [Tensor.i64s [1]] (Tensor.i64s [1]) [1] rfl rfl rfl
    exact h.trans rfl
  · exact selectConfidence_policy.2.2.2.2.2.2.1 [Tensor.other] Tensor.other rfl rfl rfl

/-! ## Feature extraction and normalization (types.rs:146-167,
processor.rs:22-42, 139-180, 421-434) -/

/-- The fields of `PendingTransaction` (types.rs:97-122) that feature
extraction reads. `value`, `gas_price`, `priority_fee` are wei amounts
(`u128`), `gas_limit` a `u64`. -/
structure PendingTransaction where
  value : Nat
  gas_price : Option Nat
  priority_fee : Nat
  gas_limit : Nat
  deriving DecidableEq, Repr

/-- `FeatureVector` (types.rs:146-153), fields in declaration order. -/
structure FeatureVector where
  tx_index : ℚ
  gas_price_gwei : ℚ
  priority_fee_gwei : ℚ
  gas_used : ℚ
  native_value : ℚ
  gas_usage_ratio : ℚ
  deriving DecidableEq, Repr

/-- `FeatureVector::to_array` (types.rs:157-166): the ONNX input order. -/
def FeatureVector.to_array (f : FeatureVector) : Fin 6 → ℚ := fun i =>
  match i.val with
  | 0 => f.gas_price_gwei
  | 1 => f.priority_fee_gwei
  | 2 => f.gas_usage_ratio
  | 3 => f.gas_used
  | 4 => f.native_value
  | _ => f.tx_index

/-- `MEANS` (processor.rs:24-31), the source's literals as exact
rationals. -/
def MEANS : Fin 6 → ℚ := fun i =>
  match i.val with
  | 0 => 0.9686767258720472
  | 1 => 0.75661699955974
  | 2 => 0.5725549928540364
  | 3 => 570146.967
  | 4 => 0.4807524878626883
  | _ => 54.8847

/-- `SCALES` (processor.rs:35-42), the source's literals as exact
rationals. -/
def SCALES : Fin 6 → ℚ := fun i =>
  match i.val with
  | 0 => 7.238926964973418
  | 1 => 7.100118667856041
  | 2 => 0.18967953026975654
  | 3 => 871444.9154728459
  | 4 => 11.583387250982357
  | _ => 85.2014871109067

/-- `normalize_features` (processor.rs:421-434): per-component z-score,
with the source's zero-scale guard. -/
def normalize_features (arr : Fin 6 → ℚ) : Fin 6 → ℚ := fun i =>
  if SCALES i ≠ 0 then (arr i - MEANS i) / SCALES i else arr i

/-- The raw-feature construction of `process_transaction`
(processor.rs:139-175): `current_index` is the rotation counter modulo
150; gas estimation is abstracted as the input `estimated_gas_used`
(provider estimate, or the 70%-of-limit fallback). -/
def build_raw_features (tx : PendingTransaction) (counter : Nat)
    (estimated_gas_used : ℚ) : FeatureVector :=
  { tx_index := ((counter % 150 : Nat) : ℚ)
    gas_price_gwei := (tx.gas_price.getD 0 : ℚ) / 1000000000
    priority_fee_gwei := (tx.priority_fee : ℚ) / 1000000000
    gas_used := estimated_gas_used
    native_value := (tx.value : ℚ) / 1000000000000000000
    gas_usage_ratio := estimated_gas_used / ((tx.gas_limit : ℚ) + 1) }

/-- C3: the six-element array handed to normalization is, in this exact
order: legacy gas price / 1e9, priority fee / 1e9, estimated gas /
(gas limit + 1), estimated gas, value / 1e18, and the rotation-counter
index, which lies in 0..149. -/
theorem feature_vector_order (tx : PendingTransaction) (counter : Nat)
    (estimated_gas_used : ℚ) :
    ((build_raw_features tx counter estimated_gas_used).to_array 0
        = (tx.gas_price.getD 0 : ℚ) / 1000000000)
    ∧ ((build_raw_features tx counter estimated_gas_used).to_array 1
        = (tx.priority_fee : ℚ) / 1000000000)
    ∧ ((build_raw_features tx counter estimated_gas_used).to_array 2
        = estimated_gas_used / ((tx.gas_limit : ℚ) + 1))
    ∧ ((build_raw_features tx counter estimated_gas_used).to_array 3
        = estimated_gas_used)
    ∧ ((build_raw_features tx counter estimated_gas_used).to_array 4
        = (tx.value : ℚ) / 1000000000000000000)
    ∧ ((build_raw_features tx counter estimated_gas_used).to_array 5
        = ((counter % 150 : Nat) : ℚ))
    ∧ counter % 150 ≤ 149 := by
  refine ⟨rfl, rfl, rfl, rfl, rfl, rfl, ?_⟩
  have := Nat.mod_lt counter (y := 150) (by norm_num)
  omega

/-- C4: normalization computes `(x[i] - mean[i]) / scale[i]` for every
component (the zero-scale guard never fires for the fixed constants), and
is a pure deterministic function of its input. -/
theorem normalize_features_zscore :
    (∀ (arr : Fin 6 → ℚ) (i : Fin 6),
      normalize_features arr i = (arr i - MEANS i) / SCALES i)
    ∧ (∀ arr₁ arr₂ : Fin 6 → ℚ, arr₁ = arr₂ →
      normalize_features arr₁ = normalize_features arr₂) := by
  constructor
  · intro arr i
    have hs : SCALES i ≠ 0 := by
      fin_cases i <;> norm_num [SCALES]
    simp [normalize_features, hs]
  · intro arr₁ arr₂ h
    rw [h]

/-- Witness for C4: the §8 fixed input `[1,1,1,600000,1,50]`, with the
gas-used component evaluated explicitly. -/
theorem normalize_features_zscore_witness :
    normalize_features
        (fun i => match i.val with
          | 0 => 1 | 1 => 1 | 2 => 1 | 3 => 600000 | 4 => 1 | _ => (50 : ℚ)) 3
      = (600000 - 570146.967) / 871444.9154728459 := by
  have h := normalize_features_zscore.1
    (fun i => match i.val with
      | 0 => 1 | 1 => 1 | 2 => 1 | 3 => 600000 | 4 => 1 | _ => (50 : ℚ)) 3
  have h2 := normalize_features_zscore.2
    (fun i => match i.val with
      | 0 => 1 | 1 => 1 | 2 => 1 | 3 => 600000 | 4 => 1 | _ => (50 : ℚ))
    (fun i => match i.val with
      | 0 => 1 | 1 => 1 | 2 => 1 | 3 => 600000 | 4 => 1 | _ => (50 : ℚ)) rfl
  rw [h]
  norm_num [MEANS, SCALES]

/-! ## Threshold gate, duplicate pre-check and response flow
(processor.rs:252-331, 344-416) -/

/-- Result of `client.is_predator` in the pre-check: `ok b` for `Ok(b)`,
`err` for `Err(_)`. -/
inductive PrecheckResult where
  | ok (flagged : Bool)
  | err
  deriving DecidableEq, Repr

/-- What `process_transaction` does for one event after the confidence is
known. `safe`: returned early at the threshold gate;
`detectStatsUpdated`: the detection/trapped/economic counter block ran;
`pipelineInvoked`: `run_ezkl_pipeline` was called;
`submissionInvoked`: `client.submit_detection` was called. -/
structure ProcOutcome where
  safe : Bool
  detectStatsUpdated : Bool
  pipelineInvoked : Bool
  submissionInvoked : Bool
  deriving DecidableEq, Repr

/-- Embedding of the control flow of `process_transaction` after inference
(processor.rs:257-331 and 344-416). `probability` is the selected
confidence; `pre` the duplicate pre-check result; `pipelineOk` whether
`run_ezkl_pipeline` returned `Ok(true)`; `extractOk` whether both the
calldata and the witness artifact extractions succeeded. -/
def process_decision (probability confidence_threshold : ℚ)
    (pre : PrecheckResult) (pipelineOk extractOk : Bool) : ProcOutcome :=
  if probability < confidence_threshold then
    { safe := true, detectStatsUpdated := false,
      pipelineInvoked := false, submissionInvoked := false }
  else
    match pre with
    | .ok true =>
      { safe := false, detectStatsUpdated := false,
        pipelineInvoked := false, submissionInvoked := false }
    | .ok false =>
      { safe := false, detectStatsUpdated := true,
        pipelineInvoked := true, submissionInvoked := pipelineOk && extractOk }
    | .err =>
      { safe := false, detectStatsUpdated := true,
        pipelineInvoked := true, submissionInvoked := pipelineOk && extractOk }

/-- C5: a confidence strictly below the threshold stops processing with
the transaction classified safe (nothing further runs), and a confidence
exactly equal to the threshold is not classified safe — the comparison is
`probability < threshold`, so equality falls to the detected path. -/
theorem threshold_gate (p t : ℚ) (pre : PrecheckResult)
    (pipelineOk extractOk : Bool) :
    (p < t → process_decision p t pre pipelineOk extractOk =
      { safe := true, detectStatsUpdated := false,
        pipelineInvoked := false, submissionInvoked := false })
    ∧ (process_decision t t pre pipelineOk extractOk).safe = false := by
  constructor
  · intro h
    simp [process_decision, h]
  · unfold process_decision
    rw [if_neg (lt_irrefl t)]
    cases pre with
    | ok flagged =>
      cases flagged
      · rfl
      · rfl
    | err => rfl

/-- Witness for C5 at concrete confidences 0.5 < 0.8. -/
theorem threshold_gate_witness :
    process_decision 0.5 0.8 PrecheckResult.err true true =
      { safe := true, detectStatsUpdated := false,
        pipelineInvoked := false, submissionInvoked := false } :=
  (threshold_gate 0.5 0.8 PrecheckResult.err true true).1 (by norm_num)

/-- C7: past the threshold, a pre-check answer of "already flagged" stops
the event with no pipeline, no submission and no counter update, while a
pre-check error proceeds to the pipeline (and to submission when the
pipeline and extraction succeed). -/
theorem precheck_idempotency (p t : ℚ) (pipelineOk extractOk : Bool) :
    (¬ p < t → process_decision p t (.ok true) pipelineOk extractOk =
      { safe := false, detectStatsUpdated := false,
        pipelineInvoked := false, submissionInvoked := false })
    ∧ (¬ p < t →
      (process_decision p t .err pipelineOk extractOk).pipelineInvoked = true
      ∧ (process_decision p t .err pipelineOk extractOk).detectStatsUpdated = true
      ∧ (process_decision p t .err pipelineOk extractOk).submissionInvoked
          = (pipelineOk && extractOk)) := by
  constructor
  · intro h
    unfold process_decision
    rw [if_neg h]
  · intro h
    unfold process_decision
    rw [if_neg h]
    exact ⟨rfl, rfl, rfl⟩

/-- Witness for C7 at confidence 0.9 against threshold 0.8. -/
theorem precheck_idempotency_witness :
    process_decision 0.9 0.8 (.ok true) true true =
      { safe := false, detectStatsUpdated := false,
        pipelineInvoked := false, submissionInvoked := false }
    ∧ (process_decision 0.9 0.8 .err false true).pipelineInvoked = true := by
  constructor
  · exact (precheck_idempotency 0.9 0.8 true true).1 (by norm_num)
  · exact ((precheck_idempotency 0.9 0.8 false true).2 (by norm_num)).1

/-! ## EZKL proof pipeline (`run_ezkl_pipeline`, processor.rs:437-520) -/

/-- The three external invocations, in source order. -/
inductive EzklStep where
  | genWitness
  | prove
  | encodeCalldata
  deriving DecidableEq, Repr

/-- Embedding of `run_ezkl_pipeline`: `wOk`, `pOk`, `eOk` are the process
exit statuses (`output.status.success()`) of `ezkl gen-witness`,
`ezkl prove`, `ezkl encode-evm-calldata`. Returns the `Ok(bool)` result of
the function together with the list of invocations actually run, in
order. (Spawn failures, which return `Err` before any status is read, are
outside this model.) -/
def run_ezkl_pipeline (wOk pOk eOk : Bool) : Bool × List EzklStep :=
  if !wOk then (false, [.genWitness])
  else if !pOk then (false, [.genWitness, .prove])
  else if !eOk then (false, [.genWitness, .prove, .encodeCalldata])
  else (true, [.genWitness, .prove, .encodeCalldata])

/-- C8: the pipeline runs its three invocations in the fixed order and
stops at the first unsuccessful exit status, returning failure as a value
(not an abort); it returns success exactly when all three succeed, and
then it has run exactly the three steps. -/
theorem ezkl_pipeline_order :
    (∀ wOk pOk eOk,
      (run_ezkl_pipeline wOk pOk eOk).1 = true ↔ wOk ∧ pOk ∧ eOk)
    ∧ (∀ pOk eOk, run_ezkl_pipeline false pOk eOk = (false, [.genWitness]))
    ∧ (∀ eOk, run_ezkl_pipeline true false eOk = (false, [.genWitness, .prove]))
    ∧ run_ezkl_pipeline true true false
        = (false, [.genWitness, .prove, .encodeCalldata])
    ∧ run_ezkl_pipeline true true true
        = (true, [.genWitness, .prove, .encodeCalldata])
    ∧ (∀ wOk pOk eOk, (run_ezkl_pipeline wOk pOk eOk).2
        ∈ ([[.genWitness], [.genWitness, .prove],
            [.genWitness, .prove, .encodeCalldata]] : List (List EzklStep))) := by
  refine ⟨?_, ?_, ?_, by decide, by decide, ?_⟩
  · intro wOk pOk eOk
    cases wOk <;> cases pOk <;> cases eOk <;> decide
  · intro pOk eOk; rfl
  · intro eOk; rfl
  · intro wOk pOk eOk
    cases wOk <;> cases pOk <;> cases eOk <;> decide

/-! ## Stats aggregator (`SentinelStats`, types.rs:233-245; mutations in
processor.rs:124-131, 299-331, 349-355) -/

/-- `SentinelStats` (types.rs:233-245), without the `uptime_secs` field
(never touched by the Detection Stage). -/
structure SentinelStats where
  total_scanned : Nat
  total_detected : Nat
  total_trapped : Nat
  zk_proofs_generated : Nat
  eth_saved : ℚ
  gas_saved : Nat
  efficiency_boost : ℚ
  history_saved : List Nat
  deriving DecidableEq, Repr

/-- `SentinelStats::default()`: all counters zero, empty history. -/
def initStats : SentinelStats :=
  { total_scanned := 0, total_detected := 0, total_trapped := 0,
    zk_proofs_generated := 0, eth_saved := 0, gas_saved := 0,
    efficiency_boost := 0, history_saved := [] }

/-- The "Update Stats: Scanned" critical section (processor.rs:125-131). -/
def scanStep (s : SentinelStats) : SentinelStats :=
  { s with total_scanned := s.total_scanned + 1 }

/-- The detection/economic critical section (processor.rs:300-331), for an
event with native value `value` (wei), legacy gas price `gas_price` (wei,
`unwrap_or(0)` applied) and gas limit `gas_limit`. The `as u64` cast of
the history sample truncates toward zero (`eth_saved ≥ 0` here). -/
def detectStep (value gas_price gas_limit : Nat) (s : SentinelStats) : SentinelStats :=
  let s := { s with total_detected := s.total_detected + 1,
                    total_trapped := s.total_trapped + 1 }
  let eth_value : ℚ := (value : ℚ) / 1000000000000000000
  let saved_eth : ℚ := eth_value * 0.01
  let s := { s with eth_saved := s.eth_saved + saved_eth }
  let total_fee_gwei : Nat := gas_limit * gas_price / 1000000000
  let s := { s with gas_saved := s.gas_saved + total_fee_gwei }
  let s :=
    if 0 < s.total_scanned then
      { s with efficiency_boost :=
          (s.total_trapped : ℚ) / (s.total_scanned : ℚ) * 100 }
    else s
  let history_val : Nat := (⌊s.eth_saved * 1000⌋).toNat
  let h := s.history_saved ++ [history_val]
  { s with history_saved := if 100 < h.length then h.drop 1 else h }

/-- The "Update Stats: ZK Proofs" critical section (processor.rs:350-355). -/
def proofStep (s : SentinelStats) : SentinelStats :=
  { s with zk_proofs_generated := s.zk_proofs_generated + 1 }

/-- One Detection Stage operation on the shared stats structure. Every
mutation of the structure in the source is one of these three critical
sections. -/
inductive StatsOp where
  | scan
  | detect (value gas_price gas_limit : Nat)
  | proofTick
  deriving DecidableEq, Repr

def statsStep (s : SentinelStats) : StatsOp → SentinelStats
  | .scan => scanStep s
  | .detect v gp gl => detectStep v gp gl s
  | .proofTick => proofStep s

/-- The stats state after a sequence of Detection Stage operations,
starting from the default. -/
def runStats (ops : List StatsOp) : SentinelStats :=
  ops.foldl statsStep initStats

theorem detectStep_scanned (v gp gl : Nat) (s : SentinelStats) :
    (detectStep v gp gl s).total_scanned = s.total_scanned := by
  simp only [detectStep]
  split <;> rfl

theorem detectStep_trapped (v gp gl : Nat) (s : SentinelStats) :
    (detectStep v gp gl s).total_trapped = s.total_trapped + 1 := by
  simp only [detectStep]
  split <;> rfl

theorem statsStep_monotone (s : SentinelStats) (op : StatsOp) :
    s.total_scanned ≤ (statsStep s op).total_scanned
    ∧ s.total_detected ≤ (statsStep s op).total_detected
    ∧ s.total_trapped ≤ (statsStep s op).total_trapped
    ∧ s.zk_proofs_generated ≤ (statsStep s op).zk_proofs_generated := by
  cases op with
  | scan => exact ⟨Nat.le_succ _, le_refl _, le_refl _, le_refl _⟩
  | detect v gp gl =>
    refine ⟨?_, ?_, ?_, ?_⟩ <;>
      · simp only [statsStep, detectStep]
        split <;> simp
  | proofTick => exact ⟨le_refl _, le_refl _, le_refl _, Nat.le_succ _⟩

theorem statsStep_history_bound (s : SentinelStats) (op : StatsOp)
    (h : s.history_saved.length ≤ 100) :
    (statsStep s op).history_saved.length ≤ 100 := by
  cases op with
  | scan => exact h
  | detect v gp gl =>
    simp only [statsStep, detectStep]
    split <;>
      · simp only [List.length_append, List.length_drop]
        split <;> simp_all
  | proofTick => exact h

theorem runStats_history_bound (ops : List StatsOp) :
    (runStats ops).history_saved.length ≤ 100 := by
  have key : ∀ (l : List StatsOp) (s : SentinelStats),
      s.history_saved.length ≤ 100 →
      (l.foldl statsStep s).history_saved.length ≤ 100 := by
    intro l
    induction l with
    | nil => intro s hs; exact hs
    | cons op rest ih =>
      intro s hs
      exact ih (statsStep s op) (statsStep_history_bound s op hs)
  exact key ops initStats (by simp [initStats])

/-- C6 counterexample: after the operation sequence scan, detect, scan —
a detected event followed by a second scanned (safe) event — the
efficiency ratio field still holds the value computed at the detection
(100), while `100 * trapped / scanned = 50`: the ratio is only recomputed
inside the detection critical section, so it goes stale as soon as the
scanned counter moves again. -/
theorem stats_efficiency_stale :
    (runStats [.scan, .detect 0 0 0, .scan]).efficiency_boost = 100
    ∧ 100 * ((runStats [.scan, .detect 0 0 0, .scan]).total_trapped : ℚ)
        / ((runStats [.scan, .detect 0 0 0, .scan]).total_scanned : ℚ) = 50
    ∧ (runStats [.scan, .detect 0 0 0, .scan]).efficiency_boost ≠
        100 * ((runStats [.scan, .detect 0 0 0, .scan]).total_trapped : ℚ)
          / ((runStats [.scan, .detect 0 0 0, .scan]).total_scanned : ℚ) := by
  have h : runStats [.scan, .detect 0 0 0, .scan] =
      { total_scanned := 2, total_detected := 1, total_trapped := 1,
        zk_proofs_generated := 0, eth_saved := 0, gas_saved := 0,
        efficiency_boost := 100, history_saved := [0] } := by
    norm_num [runStats, statsStep, scanStep, detectStep, proofStep, initStats]
  rw [h]
  norm_num

/-- C6 amended: the scanned/detected/trapped/proofs counters are
non-decreasing under every operation, the rolling history never exceeds
100 entries, and the efficiency ratio equals `100 * trapped / scanned`
immediately after each detection update (it is 0 initially and is not
recomputed by the other operations, so it can be stale between
detections). -/
theorem stats_invariants :
    (∀ (s : SentinelStats) (op : StatsOp),
      s.total_scanned ≤ (statsStep s op).total_scanned
      ∧ s.total_detected ≤ (statsStep s op).total_detected
      ∧ s.total_trapped ≤ (statsStep s op).total_trapped
      ∧ s.zk_proofs_generated ≤ (statsStep s op).zk_proofs_generated)
    ∧ (∀ ops : List StatsOp, (runStats ops).history_saved.length ≤ 100)
    ∧ (∀ (v gp gl : Nat) (s : SentinelStats), 0 < s.total_scanned →
      (detectStep v gp gl s).efficiency_boost =
        ((detectStep v gp gl s).total_trapped : ℚ)
          / ((detectStep v gp gl s).total_scanned : ℚ) * 100)
    ∧ initStats.efficiency_boost = 0 := by
  refine ⟨statsStep_monotone, runStats_history_bound, ?_, rfl⟩
  intro v gp gl s hs
  rw [detectStep_scanned, detectStep_trapped]
  simp only [detectStep]
  rw [if_pos (by simpa using hs)]

/-- Witness for C6 amended: the detection-time ratio clause at a concrete
state with one scanned event. -/
theorem stats_invariants_witness :
    (detectStep 0 0 0 (scanStep initStats)).efficiency_boost =
      ((detectStep 0 0 0 (scanStep initStats)).total_trapped : ℚ)
        / ((detectStep 0 0 0 (scanStep initStats)).total_scanned : ℚ) * 100 :=
  stats_invariants.2.2.1 0 0 0 (scanStep initStats) (by norm_num [scanStep, initStats])

/-! ## Admission-stage concurrency permits (indexer.rs:84-139)

The listener session guards enrichment tasks with
`Semaphore::new(10)` and `try_acquire_owned`. Acquire and release are
atomic, so the session is modelled as a state machine whose state is the
number of permits currently held; its events are the arrival of a
pending-transaction hash and the completion of an enrichment task (with
its outcome: found / not-found / fetch error — the permit is dropped at
the end of the task body in every case). -/

/-- The fixed pool size: `Semaphore::new(10)` (indexer.rs:84). -/
def permitPool : Nat := 10

/-- Outcome of an enrichment task (`get_transaction_by_hash`):
`Ok(Some(tx))`, `Ok(None)`, or `Err(_)`. -/
inductive FetchOutcome where
  | found
  | notFound
  | fetchError
  deriving DecidableEq, Repr

/-- An observable event of the listener session's permit discipline. -/
inductive IntakeEvent where
  | arrive
  | complete (outcome : FetchOutcome)
  deriving DecidableEq, Repr

/-- State: the number of enrichment tasks currently holding a permit. -/
structure IntakeState where
  inFlight : Nat
  deriving DecidableEq, Repr

def initIntake : IntakeState := { inFlight := 0 }

/-- One step of the permit discipline. On `arrive`,
`try_acquire_owned` succeeds iff a permit is free (`inFlight <
permitPool`); on success the spawned task holds it (`inFlight + 1`,
admitted = `true`); on failure the hash is dropped on the spot (`continue`
— state unchanged, admitted = `false`, nothing is queued). On
`complete o`, the task's permit is dropped whatever the outcome `o` was. -/
def intakeStep (s : IntakeState) : IntakeEvent → IntakeState × Bool
  | .arrive =>
    if s.inFlight < permitPool then ({ inFlight := s.inFlight + 1 }, true)
    else (s, false)
  | .complete _ => ({ inFlight := s.inFlight - 1 }, true)

/-- The state after a sequence of events, starting with no permits held. -/
def runIntake (events : List IntakeEvent) : IntakeState :=
  events.foldl (fun s e => (intakeStep s e).1) initIntake

theorem intakeStep_le (s : IntakeState) (e : IntakeEvent)
    (h : s.inFlight ≤ permitPool) : (intakeStep s e).1.inFlight ≤ permitPool := by
  cases e with
  | arrive =>
    simp only [intakeStep]
    split
    · rename_i hlt
      simpa using Nat.succ_le_of_lt hlt
    · exact h
  | complete o =>
    show s.inFlight - 1 ≤ permitPool
    omega

/-- C9: at most 10 enrichment tasks ever hold a permit at once (over every
event sequence from the idle state); an arrival while all 10 permits are
held leaves the state unchanged and is not admitted — dropped, never
queued (the state carries no queue at all); and completion releases the
permit regardless of the fetch outcome. -/
theorem intake_permit_bound :
    (∀ events : List IntakeEvent, (runIntake events).inFlight ≤ permitPool)
    ∧ (∀ s : IntakeState, ¬ s.inFlight < permitPool →
        intakeStep s .arrive = (s, false))
    ∧ (∀ (s : IntakeState) (o : FetchOutcome),
        (intakeStep s (.complete o)).1.inFlight = s.inFlight - 1
        ∧ ∀ o' : FetchOutcome,
          intakeStep s (.complete o) = intakeStep s (.complete o')) := by
  refine ⟨?_, ?_, ?_⟩
  · intro events
    have key : ∀ (l : List IntakeEvent) (s : IntakeState),
        s.inFlight ≤ permitPool →
        (l.foldl (fun s e => (intakeStep s e).1) s).inFlight ≤ permitPool := by
      intro l
      induction l with
      | nil => intro s hs; exact hs
      | cons e rest ih => intro s hs; exact ih _ (intakeStep_le s e hs)
    exact key events initIntake (by simp [initIntake, permitPool])
  · intro s h
    simp only [intakeStep]
    rw [if_neg h]
  · intro s o
    exact ⟨rfl, fun o' => rfl⟩

/-- Witness for C9: with all 10 permits held, the 11th arrival is refused
and the state is unchanged. -/
theorem intake_permit_bound_witness :
    intakeStep { inFlight := 10 } .arrive = ({ inFlight := 10 }, false) :=
  intake_permit_bound.2.1 { inFlight := 10 } (by norm_num [permitPool])

end BeesTrap
